import Mathlib

/-!
# PWHL fantasy stats: aggregation-and-ranking engine, shallow embedding

This file embeds the core logic of the PWHL fantasy-stats page:

* `computeTeamSummary` and `applyCategoryRankScoring` from the current
  script (the two-component Summarizer / Scorer engine), and
* `computeTeamSummaryLegacy` from the older standalone `script.js`
  (which has no scorer and computes a placeholder fantasy score itself).

Modelling conventions:

* JS numbers are embedded as `ℚ` (stat sums are integers, goalie rates
  and averages are rationals; no claim depends on float rounding).
* A JSON field that may be absent, `null`, or unparseable is an
  `Option` value; `toInt` / `toFloat` map the failure case (`none`,
  i.e. `parseInt` / `parseFloat` returning `NaN`) to `0`, exactly the
  "default 0 on failure/absence" rule of the source helpers.
* JS objects used as string-keyed maps (`categoryPoints`,
  `categoryRanks`) are association lists with overwrite-or-append
  assignment (`setKey`), matching JS property-set semantics.
* `Array.prototype.sort` with the numeric comparators of
  `applyCategoryRankScoring` is a stable sort under a consistent
  comparator, so its output is the unique permutation ordered by
  (category value, then input position).  We therefore sort the list of
  input positions by the total order `beats`, which compares the
  category values and breaks ties by input position.
* The scorer mutates the summaries in place; the embedding returns the
  updated collection, in input order, each element updated exactly as
  the source mutates the corresponding object.
-/

namespace PWHL

/-- A raw player record from a team JSON payload.  Stat fields are
`Option`s: `none` models a field that is absent or fails numeric
parsing. -/
structure Player where
  stats_position_group : Option String := none
  fantasy_role : Option String := none
  missing : Bool := false
  goals : Option Int := none
  assists : Option Int := none
  power_play_goals : Option Int := none
  power_play_assists : Option Int := none
  hits : Option Int := none
  shots : Option Int := none
  penalty_minutes : Option Int := none
  save_percentage : Option ℚ := none
  goals_against_average : Option ℚ := none
  deriving Repr, DecidableEq, Inhabited

/-- A raw team payload: `team_name`, `season_id` and the `players`
list, each possibly absent. -/
structure TeamJson where
  team_name : Option String := none
  season_id : Option String := none
  players : Option (List Player) := none
  deriving Repr, DecidableEq, Inhabited

/-- The `totals` object built by `computeTeamSummary`.  The stat fields
are `Option`s because the scorer reads them with `a.totals[field] ?? 0`
and must treat an absent field as `0`; the summarizer always fills all
of them. -/
structure Totals where
  goals : Option ℚ := none
  assists : Option ℚ := none
  powerPlayPoints : Option ℚ := none
  hits : Option ℚ := none
  shots : Option ℚ := none
  penaltyMinutes : Option ℚ := none
  avgSavePct : Option ℚ := none
  avgGaa : Option ℚ := none
  fantasyScore : ℚ := 0
  deriving Repr, DecidableEq, Inhabited

/-- Dynamic property read `t[field]` on a `Totals` object, as performed
by the scorer (`a.totals[field]`). -/
def Totals.getField (t : Totals) (field : String) : Option ℚ :=
  if field = "goals" then t.goals
  else if field = "assists" then t.assists
  else if field = "powerPlayPoints" then t.powerPlayPoints
  else if field = "hits" then t.hits
  else if field = "shots" then t.shots
  else if field = "penaltyMinutes" then t.penaltyMinutes
  else if field = "avgSavePct" then t.avgSavePct
  else if field = "avgGaa" then t.avgGaa
  else if field = "fantasyScore" then some t.fantasyScore
  else none

/-- The team-summary record returned by `computeTeamSummary` and
mutated by `applyCategoryRankScoring`. -/
structure TeamSummary where
  teamName : String := ""
  seasonId : Option String := none
  players : List Player := []
  skaters : List Player := []
  goalies : List Player := []
  totals : Totals := {}
  categoryPoints : List (String × Nat) := []
  categoryRanks : List (String × Nat) := []
  deriving Repr, DecidableEq, Inhabited

/-- Scoring category configuration entry. -/
structure Category where
  key : String
  field : String
  label : String
  higherIsBetter : Bool
  deriving Repr, DecidableEq, Inhabited

/-- The static `CATEGORIES` configuration table. -/
def CATEGORIES : List Category :=
  [ { key := "goals",    field := "goals",           label := "Goals",         higherIsBetter := true },
    { key := "assists",  field := "assists",         label := "Assists",       higherIsBetter := true },
    { key := "ppPoints", field := "powerPlayPoints", label := "PP Points",     higherIsBetter := true },
    { key := "hits",     field := "hits",            label := "Hits",          higherIsBetter := true },
    { key := "shots",    field := "shots",           label := "Shots on Goal", higherIsBetter := true },
    { key := "pim",      field := "penaltyMinutes",  label := "PIM",           higherIsBetter := true },
    { key := "savePct",  field := "avgSavePct",      label := "Save % (avg)",  higherIsBetter := true },
    { key := "gaa",      field := "avgGaa",          label := "GAA (avg)",     higherIsBetter := false } ]

/-- `toInt`: `parseInt(value, 10)` with `NaN` (absence or parse
failure, modelled as `none`) defaulted to `0`. -/
def toInt (value : Option Int) : Int :=
  value.getD 0

/-- `toFloat`: `parseFloat(value)` with `NaN` defaulted to `0`. -/
def toFloat (value : Option ℚ) : ℚ :=
  value.getD 0

/-- JS `a || b` for an optional string `a`: `undefined`, `null` and the
empty string are all falsy, so they fall through to `b`. -/
def strOrElse (value : Option String) (fallback : String) : String :=
  match value with
  | none => fallback
  | some s => if s = "" then fallback else s

/-- The skater filter of `computeTeamSummary`:
`p.stats_position_group === "skater" && !p.missing`. -/
def isSkater (p : Player) : Bool :=
  p.stats_position_group == some "skater" && !p.missing

/-- The goalie filter of `computeTeamSummary`:
`p.stats_position_group === "goalie" && !p.missing`. -/
def isGoalie (p : Player) : Bool :=
  p.stats_position_group == some "goalie" && !p.missing

/-- The seven mutable accumulators of the `skaters.forEach` loop in
`computeTeamSummary`. -/
structure SkaterAcc where
  goals : Int := 0
  assists : Int := 0
  powerPlayGoals : Int := 0
  powerPlayAssists : Int := 0
  hits : Int := 0
  shots : Int := 0
  penaltyMinutes : Int := 0
  deriving Repr, DecidableEq, Inhabited

/-- One iteration of the `skaters.forEach` accumulation loop. -/
def addSkater (acc : SkaterAcc) (p : Player) : SkaterAcc :=
  { goals := acc.goals + toInt p.goals
    assists := acc.assists + toInt p.assists
    powerPlayGoals := acc.powerPlayGoals + toInt p.power_play_goals
    powerPlayAssists := acc.powerPlayAssists + toInt p.power_play_assists
    hits := acc.hits + toInt p.hits
    shots := acc.shots + toInt p.shots
    penaltyMinutes := acc.penaltyMinutes + toInt p.penalty_minutes }

/-- `computeTeamSummary(teamJson, overrideLabel)` of the current script:
aggregates one raw team payload into a `TeamSummary`. -/
def computeTeamSummary (teamJson : TeamJson) (overrideLabel : Option String) : TeamSummary :=
  let players := teamJson.players.getD []
  let skaters := players.filter isSkater
  let goalies := players.filter isGoalie
  let acc := skaters.foldl addSkater {}
  let avgSavePct : ℚ :=
    if 0 < goalies.length then
      (goalies.foldl (fun sum g => sum + toFloat g.save_percentage) 0) / (goalies.length : ℚ)
    else 0
  let avgGaa : ℚ :=
    if 0 < goalies.length then
      (goalies.foldl (fun sum g => sum + toFloat g.goals_against_average) 0) / (goalies.length : ℚ)
    else 0
  let powerPlayPoints := acc.powerPlayGoals + acc.powerPlayAssists
  { teamName := strOrElse overrideLabel (strOrElse teamJson.team_name "Unnamed Team")
    seasonId := teamJson.season_id
    players := players
    skaters := skaters
    goalies := goalies
    totals :=
      { goals := some (acc.goals : ℚ)
        assists := some (acc.assists : ℚ)
        powerPlayPoints := some (powerPlayPoints : ℚ)
        hits := some (acc.hits : ℚ)
        shots := some (acc.shots : ℚ)
        penaltyMinutes := some (acc.penaltyMinutes : ℚ)
        avgSavePct := some avgSavePct
        avgGaa := some avgGaa
        fantasyScore := 0 }
    categoryPoints := []
    categoryRanks := [] }

/-- The `totals` object of the legacy standalone `script.js`, which
stores the power-play components and a computed placeholder score. -/
structure LegacyTotals where
  goals : ℚ
  assists : ℚ
  powerPlayPoints : ℚ
  powerPlayGoals : ℚ
  powerPlayAssists : ℚ
  hits : ℚ
  shots : ℚ
  penaltyMinutes : ℚ
  avgSavePct : ℚ
  avgGaa : ℚ
  fantasyScore : ℚ
  deriving Repr, DecidableEq

/-- The summary record of the legacy standalone `script.js` (no
category points or ranks exist there). -/
structure LegacyTeamSummary where
  teamName : String
  seasonId : Option String
  players : List Player
  skaters : List Player
  goalies : List Player
  totals : LegacyTotals
  deriving Repr, DecidableEq

/-- `computeTeamSummary(teamJson)` of the legacy standalone `script.js`:
same aggregation, but it computes a placeholder `fantasyScore` itself
(`goals + assists + ppPoints + hits + shots + pim + avgSavePct*10 -
avgGaa*5`) and takes no override label. -/
def computeTeamSummaryLegacy (teamJson : TeamJson) : LegacyTeamSummary :=
  let players := teamJson.players.getD []
  let skaters := players.filter isSkater
  let goalies := players.filter isGoalie
  let acc := skaters.foldl addSkater {}
  let avgSavePct : ℚ :=
    if 0 < goalies.length then
      (goalies.foldl (fun sum g => sum + toFloat g.save_percentage) 0) / (goalies.length : ℚ)
    else 0
  let avgGaa : ℚ :=
    if 0 < goalies.length then
      (goalies.foldl (fun sum g => sum + toFloat g.goals_against_average) 0) / (goalies.length : ℚ)
    else 0
  let powerPlayPoints : ℚ := (acc.powerPlayGoals : ℚ) + (acc.powerPlayAssists : ℚ)
  let fantasyScore : ℚ :=
    (acc.goals : ℚ) + (acc.assists : ℚ) + powerPlayPoints + (acc.hits : ℚ) +
      (acc.shots : ℚ) + (acc.penaltyMinutes : ℚ) + avgSavePct * 10 - avgGaa * 5
  { teamName := strOrElse teamJson.team_name "Unnamed Team"
    seasonId := teamJson.season_id
    players := players
    skaters := skaters
    goalies := goalies
    totals :=
      { goals := (acc.goals : ℚ)
        assists := (acc.assists : ℚ)
        powerPlayPoints := powerPlayPoints
        powerPlayGoals := (acc.powerPlayGoals : ℚ)
        powerPlayAssists := (acc.powerPlayAssists : ℚ)
        hits := (acc.hits : ℚ)
        shots := (acc.shots : ℚ)
        penaltyMinutes := (acc.penaltyMinutes : ℚ)
        avgSavePct := avgSavePct
        avgGaa := avgGaa
        fantasyScore := fantasyScore } }

/-- JS object property assignment `obj[k] = v` on a string-keyed map
modelled as an association list: overwrite an existing key in place,
otherwise append. -/
def setKey (l : List (String × Nat)) (k : String) (v : Nat) : List (String × Nat) :=
  match l with
  | [] => [(k, v)]
  | (k0, v0) :: rest => if k0 = k then (k, v) :: rest else (k0, v0) :: setKey rest k v

/-- JS object property read `obj[k]` on the same map. -/
def getKey (l : List (String × Nat)) (k : String) : Option Nat :=
  match l with
  | [] => none
  | (k0, v0) :: rest => if k0 = k then some v0 else getKey rest k

/-- The reset step of `applyCategoryRankScoring`: clear both per-category
maps and zero the aggregate score. -/
def resetScore (team : TeamSummary) : TeamSummary :=
  { team with
      categoryPoints := []
      categoryRanks := []
      totals := { team.totals with fantasyScore := 0 } }

/-- The raw value the scorer reads for a category:
`a.totals[field] ?? 0`. -/
def catVal (cat : Category) (team : TeamSummary) : ℚ :=
  (team.totals.getField cat.field).getD 0

/-- Comparator order on input positions induced by the scorer's stable
sort: position `i` comes (weakly) before `j` when `i` has the strictly
better category value, or the values tie and `i ≤ j` (stable sort keeps
ties in input order). -/
def beats (cat : Category) (vals : List ℚ) (i j : Nat) : Bool :=
  let vi := vals.getD i 0
  let vj := vals.getD j 0
  if cat.higherIsBetter then
    decide (vj < vi) || (decide (vi = vj) && decide (i ≤ j))
  else
    decide (vi < vj) || (decide (vi = vj) && decide (i ≤ j))

/-- `beats` as a relation. -/
def beatsRel (cat : Category) (vals : List ℚ) : Nat → Nat → Prop :=
  fun i j => beats cat vals i j = true

instance (cat : Category) (vals : List ℚ) : DecidableRel (beatsRel cat vals) :=
  fun i j => inferInstanceAs (Decidable (beats cat vals i j = true))

/-- `[...summaries].sort(comparator)` on positions: the unique
permutation of the input positions ordered by `beats`. -/
def sortIdx (cat : Category) (vals : List ℚ) : List Nat :=
  List.insertionSort (beatsRel cat vals) (List.range vals.length)

/-- Map with the element's position, starting at position `s`. -/
def mapWithIndex (f : Nat → TeamSummary → TeamSummary) : Nat → List TeamSummary → List TeamSummary
  | _, [] => []
  | s, t :: ts => f s t :: mapWithIndex f (s + 1) ts

/-- The per-team mutation of one category pass of the scorer: the team
at input position `i` has sorted position `idx`, receives rank
`idx + 1` and points `nTeams - idx`, and accumulates the points into
its aggregate `fantasyScore`. -/
def scoreTeam (cat : Category) (nTeams : Nat) (sorted : List Nat) (i : Nat)
    (team : TeamSummary) : TeamSummary :=
  let idx := sorted.indexOf i
  { team with
      categoryRanks := setKey team.categoryRanks cat.key (idx + 1)
      categoryPoints := setKey team.categoryPoints cat.key (nTeams - idx)
      totals := { team.totals with
                    fantasyScore := team.totals.fantasyScore + ((nTeams - idx : Nat) : ℚ) } }

/-- One `CATEGORIES.forEach` iteration of the scorer: sort a copy of the
collection by the category's raw value and assign rank / points /
aggregate by sorted position. -/
def scoreCategory (nTeams : Nat) (summaries : List TeamSummary) (cat : Category) :
    List TeamSummary :=
  let vals := summaries.map (catVal cat)
  let sorted := sortIdx cat vals
  mapWithIndex (scoreTeam cat nTeams sorted) 0 summaries

/-- `applyCategoryRankScoring(summaries)`: reset every summary's scoring
state, then process each configured category in order. -/
def applyCategoryRankScoring (summaries : List TeamSummary) : List TeamSummary :=
  CATEGORIES.foldl (scoreCategory summaries.length) (summaries.map resetScore)

/-- The per-team effect of a whole scoring pass over a list of
categories, reading each category's value column through `valsOf`. -/
def teamScore (n : Nat) (valsOf : Category → List ℚ) (cats : List Category) (i : Nat)
    (t : TeamSummary) : TeamSummary :=
  cats.foldl (fun u c => scoreTeam c n (sortIdx c (valsOf c)) i u) t

/-- Everything of a `TeamSummary` that the scorer never writes: identity,
rosters, and the raw stat totals. -/
def frame (t : TeamSummary) :
    String × Option String × List Player × List Player × List Player ×
      Option ℚ × Option ℚ × Option ℚ × Option ℚ × Option ℚ × Option ℚ × Option ℚ × Option ℚ :=
  (t.teamName, t.seasonId, t.players, t.skaters, t.goalies,
   t.totals.goals, t.totals.assists, t.totals.powerPlayPoints, t.totals.hits,
   t.totals.shots, t.totals.penaltyMinutes, t.totals.avgSavePct, t.totals.avgGaa)

/-! ## Concrete inputs used as test vectors -/

/-- First team of the spec's tie-break example: goals total 10. -/
def exTeamA : TeamSummary :=
  { teamName := "A", totals := { goals := some 10 } }

/-- Second team of the spec's tie-break example: goals total 10 (tied). -/
def exTeamB : TeamSummary :=
  { teamName := "B", totals := { goals := some 10 } }

/-- Third team of the spec's tie-break example: goals total 5. -/
def exTeamC : TeamSummary :=
  { teamName := "C", totals := { goals := some 5 } }

/-- A skater with every counted stat present. -/
def exSkater1 : Player :=
  { stats_position_group := some "skater", goals := some 3, assists := some 4,
    power_play_goals := some 1, power_play_assists := some 2, hits := some 5,
    shots := some 10, penalty_minutes := some 6 }

/-- A second skater with some stats missing (they coerce to 0). -/
def exSkater2 : Player :=
  { stats_position_group := some "skater", goals := some 2, shots := some 7 }

/-- A skater flagged `missing`; it must not contribute to totals. -/
def exMissingSkater : Player :=
  { stats_position_group := some "skater", missing := true, goals := some 100 }

/-- A goalie with save percentage 0.9 and goals-against average 2. -/
def exGoalie1 : Player :=
  { stats_position_group := some "goalie", save_percentage := some (9/10 : ℚ),
    goals_against_average := some 2 }

/-- A goalie with save percentage 0.8 and goals-against average 3. -/
def exGoalie2 : Player :=
  { stats_position_group := some "goalie", save_percentage := some (8/10 : ℚ),
    goals_against_average := some 3 }

/-- A full raw payload: name, season, two skaters, one missing skater,
two goalies. -/
def exPayload : TeamJson :=
  { team_name := some "Roster Name", season_id := some "5",
    players := some [exSkater1, exSkater2, exMissingSkater, exGoalie1, exGoalie2] }

/-- A payload with a team name but nothing else. -/
def namedPayload : TeamJson :=
  { team_name := some "Payload Name" }

/-- A one-skater payload (one goal) for the legacy summarizer. -/
def legacyPayload : TeamJson :=
  { players := some [ { stats_position_group := some "skater", goals := some 1 } ] }

/-- Spec-side description of a payload's counted skaters: exactly the
players with position group `skater` and missing flag false. -/
def skatersOf (teamJson : TeamJson) : List Player :=
  (teamJson.players.getD []).filter
    (fun p => decide (p.stats_position_group = some "skater" ∧ p.missing = false))

/-- Spec-side description of a payload's counted goalies: exactly the
players with position group `goalie` and missing flag false. -/
def goaliesOf (teamJson : TeamJson) : List Player :=
  (teamJson.players.getD []).filter
    (fun p => decide (p.stats_position_group = some "goalie" ∧ p.missing = false))

/-- The goals category entry of `CATEGORIES`. -/
def goalsCategory : Category :=
  { key := "goals", field := "goals", label := "Goals", higherIsBetter := true }

/-- The goals-against-average category entry of `CATEGORIES` (the only
lower-is-better one). -/
def gaaCategory : Category :=
  { key := "gaa", field := "avgGaa", label := "GAA (avg)", higherIsBetter := false }

/-! ## Basic lemmas about the embedding's list helpers -/

lemma length_mapWithIndex (f : Nat → TeamSummary → TeamSummary) :
    ∀ (s : Nat) (l : List TeamSummary), (mapWithIndex f s l).length = l.length
  | _, [] => rfl
  | s, _ :: ts => by simp [mapWithIndex, length_mapWithIndex f (s + 1) ts]

lemma getElem?_mapWithIndex (f : Nat → TeamSummary → TeamSummary) :
    ∀ (s : Nat) (l : List TeamSummary) (i : Nat),
      (mapWithIndex f s l)[i]? = Option.map (f (s + i)) l[i]?
  | _, [], i => by simp [mapWithIndex]
  | s, t :: ts, 0 => by simp [mapWithIndex]
  | s, t :: ts, i + 1 => by
      have h := getElem?_mapWithIndex f (s + 1) ts i
      simpa [mapWithIndex, Nat.add_assoc, Nat.add_comm 1 i] using h

lemma mapWithIndex_congr {f g : Nat → TeamSummary → TeamSummary}
    (h : ∀ i t, f i t = g i t) :
    ∀ (s : Nat) (l : List TeamSummary), mapWithIndex f s l = mapWithIndex g s l
  | _, [] => rfl
  | s, t :: ts => by simp [mapWithIndex, h, mapWithIndex_congr h (s + 1) ts]

lemma mapWithIndex_id :
    ∀ (s : Nat) (l : List TeamSummary), mapWithIndex (fun _ t => t) s l = l
  | _, [] => rfl
  | s, t :: ts => by simp [mapWithIndex, mapWithIndex_id (s + 1) ts]

lemma mapWithIndex_mapWithIndex (f g : Nat → TeamSummary → TeamSummary) :
    ∀ (s : Nat) (l : List TeamSummary),
      mapWithIndex f s (mapWithIndex g s l) = mapWithIndex (fun i t => f i (g i t)) s l
  | _, [] => rfl
  | s, t :: ts => by simp [mapWithIndex, mapWithIndex_mapWithIndex f g (s + 1) ts]

lemma mapWithIndex_map (f : Nat → TeamSummary → TeamSummary) (g : TeamSummary → TeamSummary) :
    ∀ (s : Nat) (l : List TeamSummary),
      mapWithIndex f s (l.map g) = mapWithIndex (fun i t => f i (g t)) s l
  | _, [] => rfl
  | s, t :: ts => by simp [mapWithIndex, mapWithIndex_map f g (s + 1) ts]

lemma map_mapWithIndex_invariant {β : Type} (f : Nat → TeamSummary → TeamSummary)
    (g : TeamSummary → β) (h : ∀ i t, g (f i t) = g t) :
    ∀ (s : Nat) (l : List TeamSummary), (mapWithIndex f s l).map g = l.map g
  | _, [] => rfl
  | s, t :: ts => by simp [mapWithIndex, h, map_mapWithIndex_invariant f g h (s + 1) ts]

lemma map_mapWithIndex_fun {β : Type} (f : Nat → TeamSummary → TeamSummary)
    (g : TeamSummary → β) (h : Nat → β) (hg : ∀ i t, g (f i t) = h i) :
    ∀ (s : Nat) (l : List TeamSummary),
      (mapWithIndex f s l).map g = (List.range l.length).map (fun k => h (s + k))
  | _, [] => by simp [mapWithIndex]
  | s, t :: ts => by
      have ih := map_mapWithIndex_fun f g h hg (s + 1) ts
      simp only [mapWithIndex, List.map_cons, hg, ih, List.length_cons,
        List.range_succ_eq_map, List.map_map]
      congr 1
      exact List.map_congr_left fun k _ => by
        have hk : s + 1 + k = s + Nat.succ k := by omega
        simp [Function.comp, hk]

lemma getKey_setKey_self (l : List (String × Nat)) (k : String) (v : Nat) :
    getKey (setKey l k v) k = some v := by
  induction l with
  | nil => simp [setKey, getKey]
  | cons p rest ih =>
      obtain ⟨k0, v0⟩ := p
      by_cases h : k0 = k <;> simp [setKey, getKey, h, ih]

lemma getKey_setKey_ne (l : List (String × Nat)) {k k' : String} (v : Nat) (h : k' ≠ k) :
    getKey (setKey l k' v) k = getKey l k := by
  induction l with
  | nil => simp [setKey, getKey, h]
  | cons p rest ih =>
      obtain ⟨k0, v0⟩ := p
      by_cases h0 : k0 = k'
      · subst h0
        simp [setKey, getKey, h]
      · by_cases h1 : k0 = k
        · subst h1
          simp [setKey, getKey, h0]
        · simp [setKey, getKey, h0, h1, ih]

/-! ## Frame lemmas: what the scorer leaves untouched -/

lemma frame_scoreTeam (cat : Category) (n : Nat) (sorted : List Nat) (i : Nat)
    (t : TeamSummary) : frame (scoreTeam cat n sorted i t) = frame t := rfl

lemma frame_resetScore (t : TeamSummary) : frame (resetScore t) = frame t := rfl

lemma getField_eq_of_frame {t u : TeamSummary} (h : frame t = frame u)
    {f : String} (hf : f ≠ "fantasyScore") :
    t.totals.getField f = u.totals.getField f := by
  simp only [frame, Prod.mk.injEq] at h
  obtain ⟨-, -, -, -, -, h6, h7, h8, h9, h10, h11, h12, h13⟩ := h
  simp only [Totals.getField]
  split_ifs <;> simp_all

lemma catVal_eq_of_frame {t u : TeamSummary} (h : frame t = frame u)
    {cat : Category} (hf : cat.field ≠ "fantasyScore") :
    catVal cat t = catVal cat u := by
  simp only [catVal, getField_eq_of_frame h hf]

lemma resetScore_eq_of_frame {t u : TeamSummary} (h : frame t = frame u) :
    resetScore t = resetScore u := by
  obtain ⟨tn, si, pl, sk, gl, ⟨a1, a2, a3, a4, a5, a6, a7, a8, fs⟩, cp, cr⟩ := t
  obtain ⟨tn', si', pl', sk', gl', ⟨b1, b2, b3, b4, b5, b6, b7, b8, fs'⟩, cp', cr'⟩ := u
  simp only [frame, Prod.mk.injEq] at h
  simp_all [resetScore]

/-! ## The stable-sort order on input positions -/

lemma beatsRel_higher {cat : Category} (hb : cat.higherIsBetter = true)
    (vals : List ℚ) (i j : Nat) :
    beatsRel cat vals i j ↔
      (vals.getD j 0 < vals.getD i 0 ∨ (vals.getD i 0 = vals.getD j 0 ∧ i ≤ j)) := by
  simp [beatsRel, beats, hb]

lemma beatsRel_lower {cat : Category} (hb : cat.higherIsBetter = false)
    (vals : List ℚ) (i j : Nat) :
    beatsRel cat vals i j ↔
      (vals.getD i 0 < vals.getD j 0 ∨ (vals.getD i 0 = vals.getD j 0 ∧ i ≤ j)) := by
  simp [beatsRel, beats, hb]

instance (cat : Category) (vals : List ℚ) : IsTrans Nat (beatsRel cat vals) where
  trans := by
    intro a b c hab hbc
    cases hb : cat.higherIsBetter
    · rw [beatsRel_lower hb] at hab hbc ⊢
      rcases hab with h1 | ⟨h1, h2⟩ <;> rcases hbc with h3 | ⟨h3, h4⟩
      · exact Or.inl (by linarith)
      · exact Or.inl (by linarith)
      · exact Or.inl (by linarith)
      · exact Or.inr ⟨by linarith, by omega⟩
    · rw [beatsRel_higher hb] at hab hbc ⊢
      rcases hab with h1 | ⟨h1, h2⟩ <;> rcases hbc with h3 | ⟨h3, h4⟩
      · exact Or.inl (by linarith)
      · exact Or.inl (by linarith)
      · exact Or.inl (by linarith)
      · exact Or.inr ⟨by linarith, by omega⟩

instance (cat : Category) (vals : List ℚ) : IsTotal Nat (beatsRel cat vals) where
  total := by
    intro a b
    cases hb : cat.higherIsBetter
    · rw [beatsRel_lower hb, beatsRel_lower hb]
      rcases lt_trichotomy (vals.getD a 0) (vals.getD b 0) with h | h | h <;>
        rcases Nat.le_total a b with hab | hab
      · exact Or.inl (Or.inl h)
      · exact Or.inl (Or.inl h)
      · exact Or.inl (Or.inr ⟨h, hab⟩)
      · exact Or.inr (Or.inr ⟨h.symm, hab⟩)
      · exact Or.inr (Or.inl h)
      · exact Or.inr (Or.inl h)
    · rw [beatsRel_higher hb, beatsRel_higher hb]
      rcases lt_trichotomy (vals.getD a 0) (vals.getD b 0) with h | h | h <;>
        rcases Nat.le_total a b with hab | hab
      · exact Or.inr (Or.inl h)
      · exact Or.inr (Or.inl h)
      · exact Or.inl (Or.inr ⟨h, hab⟩)
      · exact Or.inr (Or.inr ⟨h.symm, hab⟩)
      · exact Or.inl (Or.inl h)
      · exact Or.inl (Or.inl h)

lemma beatsRel_refl (cat : Category) (vals : List ℚ) (i : Nat) : beatsRel cat vals i i := by
  cases hb : cat.higherIsBetter
  · rw [beatsRel_lower hb]
    exact Or.inr ⟨rfl, le_refl i⟩
  · rw [beatsRel_higher hb]
    exact Or.inr ⟨rfl, le_refl i⟩

lemma not_beatsRel_of_tie {cat : Category} {vals : List ℚ} {i j : Nat}
    (hv : vals.getD i 0 = vals.getD j 0) (hij : i < j) : ¬ beatsRel cat vals j i := by
  intro h
  cases hb : cat.higherIsBetter
  · rw [beatsRel_lower hb] at h
    rcases h with h | ⟨h1, h2⟩
    · exact absurd h (by rw [hv]; exact lt_irrefl _)
    · omega
  · rw [beatsRel_higher hb] at h
    rcases h with h | ⟨h1, h2⟩
    · exact absurd h (by rw [hv]; exact lt_irrefl _)
    · omega

/-! ## Facts about the sorted position list -/

lemma sortIdx_perm (cat : Category) (vals : List ℚ) :
    List.Perm (sortIdx cat vals) (List.range vals.length) :=
  List.perm_insertionSort _ _

lemma length_sortIdx (cat : Category) (vals : List ℚ) :
    (sortIdx cat vals).length = vals.length :=
  (sortIdx_perm cat vals).length_eq.trans (List.length_range _)

lemma nodup_sortIdx (cat : Category) (vals : List ℚ) : (sortIdx cat vals).Nodup :=
  ((sortIdx_perm cat vals).nodup_iff).2 (List.nodup_range _)

lemma mem_sortIdx (cat : Category) (vals : List ℚ) (i : Nat) :
    i ∈ sortIdx cat vals ↔ i < vals.length := by
  rw [(sortIdx_perm cat vals).mem_iff, List.mem_range]

lemma sorted_sortIdx (cat : Category) (vals : List ℚ) :
    List.Sorted (beatsRel cat vals) (sortIdx cat vals) :=
  List.sorted_insertionSort _ _

lemma indexOf_sortIdx_lt {cat : Category} {vals : List ℚ} {i : Nat} (hi : i < vals.length) :
    (sortIdx cat vals).indexOf i < vals.length := by
  rw [← length_sortIdx cat vals]
  exact List.indexOf_lt_length.2 ((mem_sortIdx cat vals i).2 hi)

/-- A nodup list, mapped through its own `indexOf`, is the list of
positions. -/
lemma map_indexOf_self {α : Type} [DecidableEq α] (l : List α) (hl : l.Nodup) :
    (l.map fun a => l.indexOf a) = List.range l.length := by
  apply List.ext_getElem
  · simp
  · intro i h1 h2
    simp only [List.getElem_map, List.getElem_range]
    exact List.indexOf_getElem hl i (by simpa using h1)

/-- The assigned sorted positions, over all input positions, are a
permutation of the positions themselves. -/
lemma indexOf_sortIdx_perm (cat : Category) (vals : List ℚ) :
    List.Perm ((List.range vals.length).map fun i => (sortIdx cat vals).indexOf i)
      (List.range vals.length) := by
  have h1 : List.Perm ((List.range vals.length).map fun i => (sortIdx cat vals).indexOf i)
      ((sortIdx cat vals).map fun i => (sortIdx cat vals).indexOf i) :=
    ((sortIdx_perm cat vals).symm).map _
  have h2 : ((sortIdx cat vals).map fun i => (sortIdx cat vals).indexOf i) =
      List.range vals.length := by
    rw [map_indexOf_self _ (nodup_sortIdx cat vals), length_sortIdx]
  rw [h2] at h1
  exact h1

/-- Stability: a tie in raw value between input positions `i < j` puts
`i` strictly earlier in the sorted order. -/
lemma indexOf_sortIdx_lt_of_tie {cat : Category} {vals : List ℚ} {i j : Nat}
    (hi : i < vals.length) (hj : j < vals.length) (hij : i < j)
    (hv : vals.getD i 0 = vals.getD j 0) :
    (sortIdx cat vals).indexOf i < (sortIdx cat vals).indexOf j := by
  set s := sortIdx cat vals with hs
  have hmi : i ∈ s := (mem_sortIdx cat vals i).2 hi
  have hmj : j ∈ s := (mem_sortIdx cat vals j).2 hj
  have hpi : s.indexOf i < s.length := List.indexOf_lt_length.2 hmi
  have hpj : s.indexOf j < s.length := List.indexOf_lt_length.2 hmj
  rcases Nat.lt_trichotomy (s.indexOf i) (s.indexOf j) with h | h | h
  · exact h
  · exact absurd ((List.indexOf_inj hmi hmj).1 h) (by omega)
  · exfalso
    have hrel := (sorted_sortIdx cat vals).rel_get_of_lt
      (a := ⟨s.indexOf j, hpj⟩) (b := ⟨s.indexOf i, hpi⟩) h
    simp only [List.get_eq_getElem, List.getElem_indexOf] at hrel
    exact not_beatsRel_of_tie hv hij hrel

/-- The position at the head of the sorted order relates (via `beats`)
to every input position. -/
lemma beatsRel_of_indexOf_eq_zero {cat : Category} {vals : List ℚ} {i : Nat}
    (hi : i < vals.length) (h0 : (sortIdx cat vals).indexOf i = 0) :
    ∀ j, j < vals.length → beatsRel cat vals i j := by
  intro j hj
  set s := sortIdx cat vals with hs
  have hmi : i ∈ s := (mem_sortIdx cat vals i).2 hi
  have hmj : j ∈ s := (mem_sortIdx cat vals j).2 hj
  have hpi : s.indexOf i < s.length := List.indexOf_lt_length.2 hmi
  have hpj : s.indexOf j < s.length := List.indexOf_lt_length.2 hmj
  by_cases hq : s.indexOf j = 0
  · have : i = j := (List.indexOf_inj hmi hmj).1 (by omega)
    exact this ▸ beatsRel_refl cat vals i
  · have hrel := (sorted_sortIdx cat vals).rel_get_of_lt
      (a := ⟨s.indexOf i, hpi⟩) (b := ⟨s.indexOf j, hpj⟩) (by simp [h0]; omega)
    simpa only [List.get_eq_getElem, List.getElem_indexOf] using hrel

/-- A position that strictly beats every other position is at the head
of the sorted order. -/
lemma indexOf_eq_zero_of_strict {cat : Category} {vals : List ℚ} {i : Nat}
    (hi : i < vals.length)
    (hstr : ∀ j, j < vals.length → j ≠ i → ¬ beatsRel cat vals j i) :
    (sortIdx cat vals).indexOf i = 0 := by
  set s := sortIdx cat vals with hs
  have hmi : i ∈ s := (mem_sortIdx cat vals i).2 hi
  have hpi : s.indexOf i < s.length := List.indexOf_lt_length.2 hmi
  by_contra h0
  have hlen : 0 < s.length := by omega
  have hmem0 : s[0] ∈ s := List.getElem_mem _
  have hj : s[0] < vals.length := (mem_sortIdx cat vals _).1 hmem0
  have hne : s[0] ≠ i := by
    intro he
    have : s.indexOf (s[0]) = 0 := List.indexOf_getElem (nodup_sortIdx cat vals) 0 hlen
    rw [he] at this
    omega
  have hrel := (sorted_sortIdx cat vals).rel_get_of_lt
    (a := ⟨0, hlen⟩) (b := ⟨s.indexOf i, hpi⟩) (by simp; omega)
  simp only [List.get_eq_getElem, List.getElem_indexOf] at hrel
  exact hstr (s[0]) hj hne hrel

/-! ## Characterizing the scorer's fold -/

lemma teamScore_nil (n : Nat) (valsOf : Category → List ℚ) (i : Nat) (t : TeamSummary) :
    teamScore n valsOf [] i t = t := rfl

lemma teamScore_cons (n : Nat) (valsOf : Category → List ℚ) (c : Category)
    (cs : List Category) (i : Nat) (t : TeamSummary) :
    teamScore n valsOf (c :: cs) i t =
      teamScore n valsOf cs i (scoreTeam c n (sortIdx c (valsOf c)) i t) := rfl

lemma teamScore_congr {n : Nat} {valsOf valsOf' : Category → List ℚ} :
    ∀ {cats : List Category}, (∀ c ∈ cats, valsOf c = valsOf' c) →
      ∀ (i : Nat) (t : TeamSummary),
        teamScore n valsOf cats i t = teamScore n valsOf' cats i t := by
  intro cats
  induction cats with
  | nil => intro _ i t; rfl
  | cons c cs ih =>
      intro h i t
      rw [teamScore_cons, teamScore_cons, h c (by simp)]
      exact ih (fun c' hc' => h c' (by simp [hc'])) i _

lemma catVal_scoreTeam {c cat : Category} (hf : cat.field ≠ "fantasyScore")
    (n : Nat) (sorted : List Nat) (i : Nat) (t : TeamSummary) :
    catVal cat (scoreTeam c n sorted i t) = catVal cat t :=
  catVal_eq_of_frame (frame_scoreTeam c n sorted i t) hf

/-- The whole scorer pass, expressed per input position: the reset and
then, category by category, the per-team rank / points / aggregate
update.  Every category's value column is read from the original
collection, since the scorer never writes the stat fields it reads. -/
lemma foldl_scoreCategory_eq (n : Nat) (cats : List Category)
    (hf : ∀ c ∈ cats, c.field ≠ "fantasyScore") :
    ∀ (acc : List TeamSummary),
      List.foldl (scoreCategory n) acc cats =
        mapWithIndex (fun i t => teamScore n (fun c => acc.map (catVal c)) cats i t) 0 acc := by
  induction cats with
  | nil =>
      intro acc
      simp only [List.foldl_nil]
      exact (mapWithIndex_id 0 acc).symm
  | cons c cs ih =>
      intro acc
      have hfc : c.field ≠ "fantasyScore" := hf c (by simp)
      have hfcs : ∀ c' ∈ cs, c'.field ≠ "fantasyScore" := fun c' hc' => hf c' (by simp [hc'])
      have hacc : scoreCategory n acc c =
          mapWithIndex (scoreTeam c n (sortIdx c (acc.map (catVal c)))) 0 acc := rfl
      have hvals : ∀ c' ∈ cs, (scoreCategory n acc c).map (catVal c') = acc.map (catVal c') := by
        intro c' hc'
        rw [hacc]
        exact map_mapWithIndex_invariant _ _
          (fun i t => catVal_scoreTeam (hfcs c' hc') n _ i t) 0 acc
      calc List.foldl (scoreCategory n) acc (c :: cs)
      _ = List.foldl (scoreCategory n) (scoreCategory n acc c) cs := by
            simp [List.foldl_cons]
      _ = mapWithIndex
            (fun i t => teamScore n (fun c' => (scoreCategory n acc c).map (catVal c')) cs i t)
            0 (scoreCategory n acc c) := ih hfcs _
      _ = mapWithIndex
            (fun i t => teamScore n (fun c' => acc.map (catVal c')) cs i t)
            0 (scoreCategory n acc c) := by
            exact mapWithIndex_congr (fun i t => teamScore_congr hvals i t) 0 _
      _ = mapWithIndex
            (fun i t => teamScore n (fun c' => acc.map (catVal c')) cs i
              (scoreTeam c n (sortIdx c (acc.map (catVal c))) i t)) 0 acc := by
            rw [hacc, mapWithIndex_mapWithIndex]
      _ = mapWithIndex
            (fun i t => teamScore n (fun c' => acc.map (catVal c')) (c :: cs) i t) 0 acc := by
            exact mapWithIndex_congr (fun i t => rfl) 0 acc

lemma categories_fields_ne : ∀ c ∈ CATEGORIES, c.field ≠ "fantasyScore" := by decide

lemma catVal_resetScore (cat : Category) (hf : cat.field ≠ "fantasyScore") (t : TeamSummary) :
    catVal cat (resetScore t) = catVal cat t :=
  catVal_eq_of_frame (frame_resetScore t) hf

/-- Closed form of `applyCategoryRankScoring`: position `i` of the
output is the input summary at position `i`, reset and then scored in
every category against the value columns of the input collection. -/
lemma applyCategoryRankScoring_eq (ss : List TeamSummary) :
    applyCategoryRankScoring ss =
      mapWithIndex
        (fun i t => teamScore ss.length (fun c => ss.map (catVal c)) CATEGORIES i (resetScore t))
        0 ss := by
  unfold applyCategoryRankScoring
  rw [foldl_scoreCategory_eq ss.length CATEGORIES categories_fields_ne (ss.map resetScore)]
  rw [mapWithIndex_map]
  refine mapWithIndex_congr (fun i t => ?_) 0 ss
  refine teamScore_congr (fun c hc => ?_) i (resetScore t)
  rw [List.map_map]
  exact List.map_congr_left fun u _ =>
    catVal_resetScore c (categories_fields_ne c hc) u

lemma length_applyCategoryRankScoring (ss : List TeamSummary) :
    (applyCategoryRankScoring ss).length = ss.length := by
  rw [applyCategoryRankScoring_eq]
  exact length_mapWithIndex _ 0 ss

/-! ## Per-team facts about `teamScore` -/

lemma getKey_ranks_teamScore_notMem {n : Nat} {valsOf : Category → List ℚ}
    {cats : List Category} {k : String} (hk : k ∉ cats.map Category.key) (i : Nat) :
    ∀ (t : TeamSummary),
      getKey (teamScore n valsOf cats i t).categoryRanks k = getKey t.categoryRanks k := by
  induction cats with
  | nil => intro t; rfl
  | cons c cs ih =>
      intro t
      simp only [List.map_cons, List.mem_cons, not_or] at hk
      rw [teamScore_cons, ih (by exact fun h => hk.2 h) (scoreTeam c n (sortIdx c (valsOf c)) i t)]
      exact getKey_setKey_ne _ _ fun h => hk.1 h.symm

lemma getKey_points_teamScore_notMem {n : Nat} {valsOf : Category → List ℚ}
    {cats : List Category} {k : String} (hk : k ∉ cats.map Category.key) (i : Nat) :
    ∀ (t : TeamSummary),
      getKey (teamScore n valsOf cats i t).categoryPoints k = getKey t.categoryPoints k := by
  induction cats with
  | nil => intro t; rfl
  | cons c cs ih =>
      intro t
      simp only [List.map_cons, List.mem_cons, not_or] at hk
      rw [teamScore_cons, ih (by exact fun h => hk.2 h) (scoreTeam c n (sortIdx c (valsOf c)) i t)]
      exact getKey_setKey_ne _ _ fun h => hk.1 h.symm

lemma getKey_ranks_teamScore {n : Nat} {valsOf : Category → List ℚ}
    {cats : List Category} (hnd : (cats.map Category.key).Nodup)
    {cat : Category} (hc : cat ∈ cats) (i : Nat) :
    ∀ (t : TeamSummary),
      getKey (teamScore n valsOf cats i t).categoryRanks cat.key =
        some ((sortIdx cat (valsOf cat)).indexOf i + 1) := by
  induction cats with
  | nil => cases hc
  | cons c cs ih =>
      intro t
      simp only [List.map_cons, List.nodup_cons] at hnd
      rcases List.mem_cons.1 hc with rfl | hmem
      · have hnot : cat.key ∉ cs.map Category.key := hnd.1
        rw [teamScore_cons, getKey_ranks_teamScore_notMem hnot i _]
        simp [scoreTeam, getKey_setKey_self]
      · rw [teamScore_cons]
        exact ih hnd.2 hmem _

lemma getKey_points_teamScore {n : Nat} {valsOf : Category → List ℚ}
    {cats : List Category} (hnd : (cats.map Category.key).Nodup)
    {cat : Category} (hc : cat ∈ cats) (i : Nat) :
    ∀ (t : TeamSummary),
      getKey (teamScore n valsOf cats i t).categoryPoints cat.key =
        some (n - (sortIdx cat (valsOf cat)).indexOf i) := by
  induction cats with
  | nil => cases hc
  | cons c cs ih =>
      intro t
      simp only [List.map_cons, List.nodup_cons] at hnd
      rcases List.mem_cons.1 hc with rfl | hmem
      · have hnot : cat.key ∉ cs.map Category.key := hnd.1
        rw [teamScore_cons, getKey_points_teamScore_notMem hnot i _]
        simp [scoreTeam, getKey_setKey_self]
      · rw [teamScore_cons]
        exact ih hnd.2 hmem _

lemma fantasyScore_teamScore {n : Nat} {valsOf : Category → List ℚ} {cats : List Category}
    (i : Nat) :
    ∀ (t : TeamSummary),
      (teamScore n valsOf cats i t).totals.fantasyScore =
        t.totals.fantasyScore +
          (cats.map fun c => ((n - (sortIdx c (valsOf c)).indexOf i : Nat) : ℚ)).sum := by
  induction cats with
  | nil => intro t; simp [teamScore_nil]
  | cons c cs ih =>
      intro t
      rw [teamScore_cons, ih (scoreTeam c n (sortIdx c (valsOf c)) i t)]
      simp only [scoreTeam, List.map_cons, List.sum_cons]
      ring

lemma frame_teamScore {n : Nat} {valsOf : Category → List ℚ} {cats : List Category} (i : Nat) :
    ∀ (t : TeamSummary), frame (teamScore n valsOf cats i t) = frame t := by
  induction cats with
  | nil => intro t; rfl
  | cons c cs ih =>
      intro t
      rw [teamScore_cons, ih (scoreTeam c n (sortIdx c (valsOf c)) i t)]
      exact frame_scoreTeam c n _ i t

lemma categories_keys_nodup : (CATEGORIES.map Category.key).Nodup := by decide

/-! ## The summarizer's accumulation loops as sums -/

lemma foldl_addSkater (ps : List Player) :
    ∀ (acc : SkaterAcc),
      ps.foldl addSkater acc =
        { goals := acc.goals + (ps.map fun p => toInt p.goals).sum
          assists := acc.assists + (ps.map fun p => toInt p.assists).sum
          powerPlayGoals := acc.powerPlayGoals + (ps.map fun p => toInt p.power_play_goals).sum
          powerPlayAssists :=
            acc.powerPlayAssists + (ps.map fun p => toInt p.power_play_assists).sum
          hits := acc.hits + (ps.map fun p => toInt p.hits).sum
          shots := acc.shots + (ps.map fun p => toInt p.shots).sum
          penaltyMinutes := acc.penaltyMinutes + (ps.map fun p => toInt p.penalty_minutes).sum } := by
  induction ps with
  | nil =>
      intro acc
      cases acc
      simp
  | cons p ps ih =>
      intro acc
      rw [List.foldl_cons, ih (addSkater acc p)]
      simp only [addSkater, List.map_cons, List.sum_cons, SkaterAcc.mk.injEq]
      refine ⟨?_, ?_, ?_, ?_, ?_, ?_, ?_⟩ <;> ring

lemma foldl_add_rat (f : Player → ℚ) (ps : List Player) :
    ∀ (a : ℚ), ps.foldl (fun s g => s + f g) a = a + (ps.map f).sum := by
  induction ps with
  | nil => intro a; simp
  | cons p ps ih =>
      intro a
      rw [List.foldl_cons, ih (a + f p)]
      simp only [List.map_cons, List.sum_cons]
      ring

lemma isSkater_eq (p : Player) :
    isSkater p = decide (p.stats_position_group = some "skater" ∧ p.missing = false) := by
  cases hm : p.missing <;> simp [isSkater, hm, beq_eq_decide]

lemma isGoalie_eq (p : Player) :
    isGoalie p = decide (p.stats_position_group = some "goalie" ∧ p.missing = false) := by
  cases hm : p.missing <;> simp [isGoalie, hm, beq_eq_decide]

/-! ## Reading one scored summary -/

lemma scored_getD (ss : List TeamSummary) {i : Nat} (hi : i < ss.length) :
    (applyCategoryRankScoring ss).getD i default =
      teamScore ss.length (fun c => ss.map (catVal c)) CATEGORIES i
        (resetScore (ss.getD i default)) := by
  rw [applyCategoryRankScoring_eq, List.getD_eq_getElem?_getD, getElem?_mapWithIndex,
    List.getD_eq_getElem?_getD, List.getElem?_eq_getElem hi]
  simp

lemma getD_map_catVal (cat : Category) (ss : List TeamSummary) {i : Nat}
    (hi : i < ss.length) :
    (ss.map (catVal cat)).getD i 0 = catVal cat (ss.getD i default) := by
  rw [List.getD_eq_getElem?_getD, List.getElem?_map, List.getD_eq_getElem?_getD,
    List.getElem?_eq_getElem hi]
  simp

lemma rank_scored {ss : List TeamSummary} {i : Nat} (hi : i < ss.length)
    {cat : Category} (hcat : cat ∈ CATEGORIES) :
    getKey ((applyCategoryRankScoring ss).getD i default).categoryRanks cat.key =
      some ((sortIdx cat (ss.map (catVal cat))).indexOf i + 1) := by
  rw [scored_getD ss hi]
  exact getKey_ranks_teamScore categories_keys_nodup hcat i _

lemma points_scored {ss : List TeamSummary} {i : Nat} (hi : i < ss.length)
    {cat : Category} (hcat : cat ∈ CATEGORIES) :
    getKey ((applyCategoryRankScoring ss).getD i default).categoryPoints cat.key =
      some (ss.length - (sortIdx cat (ss.map (catVal cat))).indexOf i) := by
  rw [scored_getD ss hi]
  exact getKey_points_teamScore categories_keys_nodup hcat i _

lemma fantasy_scored {ss : List TeamSummary} {i : Nat} (hi : i < ss.length) :
    ((applyCategoryRankScoring ss).getD i default).totals.fantasyScore =
      (CATEGORIES.map fun c =>
        ((ss.length - (sortIdx c (ss.map (catVal c))).indexOf i : Nat) : ℚ)).sum := by
  rw [scored_getD ss hi, fantasyScore_teamScore]
  simp [resetScore]

lemma frame_scored {ss : List TeamSummary} {i : Nat} (hi : i < ss.length) :
    frame ((applyCategoryRankScoring ss).getD i default) = frame (ss.getD i default) := by
  rw [scored_getD ss hi, frame_teamScore, frame_resetScore]

lemma ranks_map_scored (ss : List TeamSummary) {cat : Category} (hcat : cat ∈ CATEGORIES) :
    ((applyCategoryRankScoring ss).map fun t => getKey t.categoryRanks cat.key) =
      (List.range ss.length).map
        (fun i => some ((sortIdx cat (ss.map (catVal cat))).indexOf i + 1)) := by
  rw [applyCategoryRankScoring_eq,
    map_mapWithIndex_fun _ _ (fun i => some ((sortIdx cat (ss.map (catVal cat))).indexOf i + 1))
      (fun i t => getKey_ranks_teamScore categories_keys_nodup hcat i _) 0 ss]
  exact List.map_congr_left fun k _ => by simp

lemma ranks_perm_scored (ss : List TeamSummary) {cat : Category} (hcat : cat ∈ CATEGORIES) :
    List.Perm ((applyCategoryRankScoring ss).map fun t => getKey t.categoryRanks cat.key)
      ((List.range ss.length).map fun k => some (k + 1)) := by
  rw [ranks_map_scored ss hcat]
  have h2 := (indexOf_sortIdx_perm cat (ss.map (catVal cat))).map (fun x => some (x + 1))
  simpa [List.map_map, Function.comp] using h2

/-! ## The claims -/

/-- C1: the skater totals of `computeTeamSummary` are the sums of the
integer-coerced player fields over exactly the players with position
group `skater` and missing flag false, and `powerPlayPoints` is the sum
of the integer-coerced power-play goals plus the sum of the
integer-coerced power-play assists over those same skaters. -/
theorem claim1_skater_totals_are_sums (tj : TeamJson) (lbl : Option String) :
    (computeTeamSummary tj lbl).totals.goals =
      some ((((skatersOf tj).map fun p => toInt p.goals).sum : ℤ) : ℚ) ∧
    (computeTeamSummary tj lbl).totals.assists =
      some ((((skatersOf tj).map fun p => toInt p.assists).sum : ℤ) : ℚ) ∧
    (computeTeamSummary tj lbl).totals.hits =
      some ((((skatersOf tj).map fun p => toInt p.hits).sum : ℤ) : ℚ) ∧
    (computeTeamSummary tj lbl).totals.shots =
      some ((((skatersOf tj).map fun p => toInt p.shots).sum : ℤ) : ℚ) ∧
    (computeTeamSummary tj lbl).totals.penaltyMinutes =
      some ((((skatersOf tj).map fun p => toInt p.penalty_minutes).sum : ℤ) : ℚ) ∧
    (computeTeamSummary tj lbl).totals.powerPlayPoints =
      some ((((skatersOf tj).map fun p => toInt p.power_play_goals).sum +
             ((skatersOf tj).map fun p => toInt p.power_play_assists).sum : ℤ) : ℚ) := by
  have hsk : (tj.players.getD []).filter isSkater = skatersOf tj :=
    List.filter_congr fun p _ => isSkater_eq p
  refine ⟨?_, ?_, ?_, ?_, ?_, ?_⟩ <;>
    simp [computeTeamSummary, hsk, foldl_addSkater]

/-- C5 counterexample: the repository's legacy summarizer
(`computeTeamSummary` of the standalone `script.js`, embedded as
`computeTeamSummaryLegacy`) returns a summary whose aggregate fantasy
score is already nonzero (a placeholder formula), so the claim that the
summarizer always returns a zero fantasy score fails on it. -/
theorem claim5_legacy_counterexample :
    (computeTeamSummaryLegacy legacyPayload).totals.fantasyScore = 1 ∧
      (computeTeamSummaryLegacy legacyPayload).totals.fantasyScore ≠ 0 := by
  have h : (computeTeamSummaryLegacy legacyPayload).totals.fantasyScore = 1 := by
    simp [computeTeamSummaryLegacy, legacyPayload, isSkater, isGoalie, addSkater,
      toInt, toFloat]
  exact ⟨h, by rw [h]; norm_num⟩

/-- C5 amended: the current engine's summarizer (`computeTeamSummary`
of the script that also defines the Scorer) returns its aggregate
fantasy score initialized to zero and its per-category points and ranks
empty; the legacy standalone summarizer instead computes a placeholder
score itself. -/
theorem claim5_summarizer_initializes_scoring (tj : TeamJson) (lbl : Option String) :
    (computeTeamSummary tj lbl).totals.fantasyScore = 0 ∧
    (computeTeamSummary tj lbl).categoryPoints = [] ∧
    (computeTeamSummary tj lbl).categoryRanks = [] :=
  ⟨rfl, rfl, rfl⟩

/-- C8 counterexample: an explicitly supplied override label does NOT
always win: the empty-string override is falsy for the JS `||` chain,
so the payload's own name is used instead of the supplied override. -/
theorem claim8_empty_override_loses :
    (computeTeamSummary namedPayload (some "")).teamName = "Payload Name" ∧
      (computeTeamSummary namedPayload (some "")).teamName ≠ "" := by
  constructor <;> decide

/-- C8 amended: name resolution follows the `||` chain with JS
falsiness: a supplied non-empty override wins; otherwise (override
absent or empty) a non-empty payload name wins; otherwise the
placeholder `"Unnamed Team"` is used. -/
theorem claim8_name_resolution (tj : TeamJson) (lbl : Option String) :
    (∀ s, lbl = some s → s ≠ "" → (computeTeamSummary tj lbl).teamName = s) ∧
    ((lbl = none ∨ lbl = some "") → ∀ t, tj.team_name = some t → t ≠ "" →
      (computeTeamSummary tj lbl).teamName = t) ∧
    ((lbl = none ∨ lbl = some "") → (tj.team_name = none ∨ tj.team_name = some "") →
      (computeTeamSummary tj lbl).teamName = "Unnamed Team") := by
  refine ⟨?_, ?_, ?_⟩
  · intro s hs hne
    subst hs
    simp [computeTeamSummary, strOrElse, hne]
  · intro hl t ht hne
    rcases hl with rfl | rfl <;> simp [computeTeamSummary, strOrElse, ht, hne]
  · intro hl ht
    rcases hl with rfl | rfl <;> rcases ht with ht | ht <;>
      simp [computeTeamSummary, strOrElse, ht]

/-- C8 witness: a non-empty override label beats a payload name. -/
theorem claim8_witness :
    (some "Label X" : Option String) = some "Label X" ∧ "Label X" ≠ "" ∧
      (computeTeamSummary namedPayload (some "Label X")).teamName = "Label X" :=
  ⟨rfl, by decide,
    (claim8_name_resolution namedPayload (some "Label X")).1 "Label X" rfl (by decide)⟩

/-- C9: a payload whose players list is absent or empty yields (with no
error, the function being total) zero skater totals and zero goalie
averages, the absent list being treated as empty. -/
theorem claim9_empty_roster (tj : TeamJson) (lbl : Option String)
    (h : tj.players = none ∨ tj.players = some []) :
    (computeTeamSummary tj lbl).players = [] ∧
    (computeTeamSummary tj lbl).totals.goals = some 0 ∧
    (computeTeamSummary tj lbl).totals.assists = some 0 ∧
    (computeTeamSummary tj lbl).totals.powerPlayPoints = some 0 ∧
    (computeTeamSummary tj lbl).totals.hits = some 0 ∧
    (computeTeamSummary tj lbl).totals.shots = some 0 ∧
    (computeTeamSummary tj lbl).totals.penaltyMinutes = some 0 ∧
    (computeTeamSummary tj lbl).totals.avgSavePct = some 0 ∧
    (computeTeamSummary tj lbl).totals.avgGaa = some 0 := by
  rcases h with h | h <;> simp [computeTeamSummary, h]

/-- C7: the goalie averages of `computeTeamSummary` are the arithmetic
means of the float-coerced rate stats over exactly the players with
position group `goalie` and missing flag false; with zero such goalies
both averages are 0; and every summary in a scored collection receives
a rank in every category (so a zero-goalie team is not excluded from
ranking). -/
theorem claim7_goalie_averages (tj : TeamJson) (lbl : Option String) :
    (goaliesOf tj ≠ [] →
      (computeTeamSummary tj lbl).totals.avgSavePct =
        some (((goaliesOf tj).map fun g => toFloat g.save_percentage).sum /
          ((goaliesOf tj).length : ℚ)) ∧
      (computeTeamSummary tj lbl).totals.avgGaa =
        some (((goaliesOf tj).map fun g => toFloat g.goals_against_average).sum /
          ((goaliesOf tj).length : ℚ))) ∧
    (goaliesOf tj = [] →
      (computeTeamSummary tj lbl).totals.avgSavePct = some 0 ∧
      (computeTeamSummary tj lbl).totals.avgGaa = some 0) ∧
    (∀ (ss : List TeamSummary) (i : Nat), i < ss.length → ∀ cat ∈ CATEGORIES,
      ∃ r, getKey ((applyCategoryRankScoring ss).getD i default).categoryRanks cat.key =
        some r) := by
  have hgl : (tj.players.getD []).filter isGoalie = goaliesOf tj :=
    List.filter_congr fun p _ => isGoalie_eq p
  refine ⟨?_, ?_, ?_⟩
  · intro hne
    have hpos : 0 < (goaliesOf tj).length := List.length_pos.2 hne
    constructor <;>
      simp [computeTeamSummary, hgl, hpos, foldl_add_rat]
  · intro hnil
    constructor <;>
      simp [computeTeamSummary, hgl, hnil]
  · intro ss i hi cat hcat
    exact ⟨_, rank_scored hi hcat⟩

/-- C7 witness: the sample payload with two goalies, and a concrete
scored collection in which every team has a goals rank. -/
theorem claim7_witness :
    goaliesOf exPayload ≠ [] ∧
      ((computeTeamSummary exPayload none).totals.avgSavePct =
        some (((goaliesOf exPayload).map fun g => toFloat g.save_percentage).sum /
          ((goaliesOf exPayload).length : ℚ)) ∧
       (computeTeamSummary exPayload none).totals.avgGaa =
        some (((goaliesOf exPayload).map fun g => toFloat g.goals_against_average).sum /
          ((goaliesOf exPayload).length : ℚ))) ∧
      (0 : Nat) < [exTeamA, exTeamB, exTeamC].length ∧ goalsCategory ∈ CATEGORIES ∧
      (∃ r, getKey
          ((applyCategoryRankScoring [exTeamA, exTeamB, exTeamC]).getD 0 default).categoryRanks
          goalsCategory.key = some r) :=
  ⟨by decide,
    (claim7_goalie_averages exPayload none).1 (by decide),
    by decide, by decide,
    (claim7_goalie_averages exPayload none).2.2 [exTeamA, exTeamB, exTeamC] 0 (by decide)
      goalsCategory (by decide)⟩

/-- C2: ties in the raw category value are broken by input order (the
stable sort has no secondary key): distinct teams never share a rank,
and of two tied teams the earlier one in the input receives the
strictly smaller rank; in particular three teams with goals totals
10, 10, 5 receive ranks 1, 2, 3 and points 3, 2, 1 in encountered
order. -/
theorem claim2_stable_ties (ss : List TeamSummary) (hss : ss ≠ [])
    (cat : Category) (hcat : cat ∈ CATEGORIES) (i j : Nat)
    (hi : i < ss.length) (hj : j < ss.length) :
    (i ≠ j →
      getKey ((applyCategoryRankScoring ss).getD i default).categoryRanks cat.key ≠
        getKey ((applyCategoryRankScoring ss).getD j default).categoryRanks cat.key) ∧
    (i < j → catVal cat (ss.getD i default) = catVal cat (ss.getD j default) →
      ∃ ri rj,
        getKey ((applyCategoryRankScoring ss).getD i default).categoryRanks cat.key =
          some ri ∧
        getKey ((applyCategoryRankScoring ss).getD j default).categoryRanks cat.key =
          some rj ∧
        ri < rj) ∧
    (((applyCategoryRankScoring [exTeamA, exTeamB, exTeamC]).map
        fun t => getKey t.categoryRanks "goals") = [some 1, some 2, some 3] ∧
     ((applyCategoryRankScoring [exTeamA, exTeamB, exTeamC]).map
        fun t => getKey t.categoryPoints "goals") = [some 3, some 2, some 1]) := by
  have hlen : (ss.map (catVal cat)).length = ss.length := List.length_map ss _
  have hi' : i < (ss.map (catVal cat)).length := by omega
  have hj' : j < (ss.map (catVal cat)).length := by omega
  refine ⟨?_, ?_, by decide, by decide⟩
  · intro hne heq
    rw [rank_scored hi hcat, rank_scored hj hcat] at heq
    have heq' : (sortIdx cat (ss.map (catVal cat))).indexOf i =
        (sortIdx cat (ss.map (catVal cat))).indexOf j := by
      simpa using heq
    exact hne ((List.indexOf_inj ((mem_sortIdx _ _ _).2 hi') ((mem_sortIdx _ _ _).2 hj')).1 heq')
  · intro hij hvv
    have hv : (ss.map (catVal cat)).getD i 0 = (ss.map (catVal cat)).getD j 0 := by
      rw [getD_map_catVal cat ss hi, getD_map_catVal cat ss hj, hvv]
    refine ⟨_, _, rank_scored hi hcat, rank_scored hj hcat, ?_⟩
    have := @indexOf_sortIdx_lt_of_tie cat (ss.map (catVal cat)) i j hi' hj' hij hv
    omega

/-- C2 witness: the spec's three-team goals example, teams 0 and 1
tied at 10 goals. -/
theorem claim2_witness :
    ([exTeamA, exTeamB, exTeamC] : List TeamSummary) ≠ [] ∧ goalsCategory ∈ CATEGORIES ∧
      (0 : Nat) < [exTeamA, exTeamB, exTeamC].length ∧
      (1 : Nat) < [exTeamA, exTeamB, exTeamC].length ∧
      ((0 : Nat) < 1 →
        catVal goalsCategory ([exTeamA, exTeamB, exTeamC].getD 0 default) =
          catVal goalsCategory ([exTeamA, exTeamB, exTeamC].getD 1 default) →
        ∃ ri rj,
          getKey ((applyCategoryRankScoring [exTeamA, exTeamB, exTeamC]).getD 0
            default).categoryRanks goalsCategory.key = some ri ∧
          getKey ((applyCategoryRankScoring [exTeamA, exTeamB, exTeamC]).getD 1
            default).categoryRanks goalsCategory.key = some rj ∧
          ri < rj) :=
  ⟨by decide, by decide, by decide, by decide,
    (claim2_stable_ties [exTeamA, exTeamB, exTeamC] (by decide) goalsCategory (by decide)
      0 1 (by decide) (by decide)).2.1⟩

/-- C3: after scoring a non-empty collection of N summaries, each
category's rank lookups over the teams are exactly
`some 1, ..., some N` up to permutation (each used once); every team
has a rank r with 1 ≤ r ≤ N and points N − r + 1 in the category; and
each team's aggregate fantasy score is the sum of its per-category
points over all categories. -/
theorem claim3_rank_totality (ss : List TeamSummary) (hss : ss ≠ [])
    (cat : Category) (hcat : cat ∈ CATEGORIES) :
    List.Perm ((applyCategoryRankScoring ss).map fun t => getKey t.categoryRanks cat.key)
      ((List.range ss.length).map fun k => some (k + 1)) ∧
    (∀ i, i < ss.length →
      ∃ r, getKey ((applyCategoryRankScoring ss).getD i default).categoryRanks cat.key =
          some r ∧
        1 ≤ r ∧ r ≤ ss.length ∧
        getKey ((applyCategoryRankScoring ss).getD i default).categoryPoints cat.key =
          some (ss.length - r + 1)) ∧
    (∀ i, i < ss.length →
      ((applyCategoryRankScoring ss).getD i default).totals.fantasyScore =
        (CATEGORIES.map fun c =>
          (((getKey ((applyCategoryRankScoring ss).getD i default).categoryPoints c.key).getD 0
            : Nat) : ℚ)).sum) := by
  refine ⟨ranks_perm_scored ss hcat, ?_, ?_⟩
  · intro i hi
    have hlen : (ss.map (catVal cat)).length = ss.length := List.length_map ss _
    have hi' : i < (ss.map (catVal cat)).length := by omega
    have hidx := @indexOf_sortIdx_lt cat (ss.map (catVal cat)) i hi'
    rw [hlen] at hidx
    refine ⟨(sortIdx cat (ss.map (catVal cat))).indexOf i + 1, rank_scored hi hcat,
      by omega, by omega, ?_⟩
    rw [points_scored hi hcat]
    congr 1
    omega
  · intro i hi
    have hmap : (CATEGORIES.map fun c =>
        (((getKey ((applyCategoryRankScoring ss).getD i default).categoryPoints c.key).getD 0
          : Nat) : ℚ)) =
        (CATEGORIES.map fun c =>
          ((ss.length - (sortIdx c (ss.map (catVal c))).indexOf i : Nat) : ℚ)) :=
      List.map_congr_left fun c hc => by rw [points_scored hi hc]; simp
    rw [fantasy_scored hi, hmap]

/-- C3 witness: the three-team example in the goals category. -/
theorem claim3_witness :
    ([exTeamA, exTeamB, exTeamC] : List TeamSummary) ≠ [] ∧ goalsCategory ∈ CATEGORIES ∧
      List.Perm
        ((applyCategoryRankScoring [exTeamA, exTeamB, exTeamC]).map
          fun t => getKey t.categoryRanks goalsCategory.key)
        ((List.range [exTeamA, exTeamB, exTeamC].length).map fun k => some (k + 1)) :=
  ⟨by decide, by decide,
    (claim3_rank_totality [exTeamA, exTeamB, exTeamC] (by decide) goalsCategory (by decide)).1⟩

/-- C4: in every category the rank-1 team's raw value is maximal when
`higherIsBetter` is true and minimal when it is false; a team strictly
better than all others in the category's direction receives rank 1; an
absent totals field is ranked as 0; and the lower-is-better categories
are exactly the goals-against-average one. -/
theorem claim4_direction (ss : List TeamSummary) (hss : ss ≠ [])
    (cat : Category) (hcat : cat ∈ CATEGORIES) (i : Nat) (hi : i < ss.length) :
    (getKey ((applyCategoryRankScoring ss).getD i default).categoryRanks cat.key = some 1 →
      ∀ j, j < ss.length →
        (cat.higherIsBetter = true →
          catVal cat (ss.getD j default) ≤ catVal cat (ss.getD i default)) ∧
        (cat.higherIsBetter = false →
          catVal cat (ss.getD i default) ≤ catVal cat (ss.getD j default))) ∧
    ((∀ j, j < ss.length → j ≠ i →
        (cat.higherIsBetter = true →
          catVal cat (ss.getD j default) < catVal cat (ss.getD i default)) ∧
        (cat.higherIsBetter = false →
          catVal cat (ss.getD i default) < catVal cat (ss.getD j default))) →
      getKey ((applyCategoryRankScoring ss).getD i default).categoryRanks cat.key = some 1) ∧
    (∀ t : TeamSummary, t.totals.getField cat.field = none → catVal cat t = 0) ∧
    (cat.higherIsBetter = false ↔ cat.key = "gaa") := by
  have hlen : (ss.map (catVal cat)).length = ss.length := List.length_map ss _
  have hi' : i < (ss.map (catVal cat)).length := by omega
  refine ⟨?_, ?_, ?_, ?_⟩
  · intro h1 j hj
    have hj' : j < (ss.map (catVal cat)).length := by omega
    rw [rank_scored hi hcat] at h1
    have hzero : (sortIdx cat (ss.map (catVal cat))).indexOf i = 0 := by
      simpa using h1
    have hrel := beatsRel_of_indexOf_eq_zero hi' hzero j hj'
    constructor
    · intro hb
      rw [beatsRel_higher hb] at hrel
      rw [← getD_map_catVal cat ss hi, ← getD_map_catVal cat ss hj]
      rcases hrel with h | ⟨h, -⟩
      · exact le_of_lt h
      · exact le_of_eq h.symm
    · intro hb
      rw [beatsRel_lower hb] at hrel
      rw [← getD_map_catVal cat ss hi, ← getD_map_catVal cat ss hj]
      rcases hrel with h | ⟨h, -⟩
      · exact le_of_lt h
      · exact le_of_eq h
  · intro hstr
    rw [rank_scored hi hcat]
    have hzero : (sortIdx cat (ss.map (catVal cat))).indexOf i = 0 := by
      apply indexOf_eq_zero_of_strict hi'
      intro j hj' hne hrel
      have hj : j < ss.length := by omega
      have hcmp := hstr j hj hne
      cases hb : cat.higherIsBetter
      · rw [beatsRel_lower hb] at hrel
        have hlt := hcmp.2 hb
        rw [← getD_map_catVal cat ss hi, ← getD_map_catVal cat ss hj] at hlt
        rcases hrel with h | ⟨h, -⟩ <;> linarith
      · rw [beatsRel_higher hb] at hrel
        have hlt := hcmp.1 hb
        rw [← getD_map_catVal cat ss hi, ← getD_map_catVal cat ss hj] at hlt
        rcases hrel with h | ⟨h, -⟩ <;> linarith
    rw [hzero]
  · intro t ht
    simp [catVal, ht]
  · simp only [CATEGORIES, List.mem_cons, List.not_mem_nil, or_false] at hcat
    rcases hcat with rfl | rfl | rfl | rfl | rfl | rfl | rfl | rfl <;> simp

/-- C4 witness: in the three-team goals example, team 2 (5 goals) is
strictly worse than the others, and the absent-field clause at a blank
team. -/
theorem claim4_witness :
    ([exTeamA, exTeamB, exTeamC] : List TeamSummary) ≠ [] ∧ goalsCategory ∈ CATEGORIES ∧
      (0 : Nat) < [exTeamA, exTeamB, exTeamC].length ∧
      (getKey ((applyCategoryRankScoring [exTeamA, exTeamB, exTeamC]).getD 0
          default).categoryRanks goalsCategory.key = some 1 →
        ∀ j, j < [exTeamA, exTeamB, exTeamC].length →
          (goalsCategory.higherIsBetter = true →
            catVal goalsCategory ([exTeamA, exTeamB, exTeamC].getD j default) ≤
              catVal goalsCategory ([exTeamA, exTeamB, exTeamC].getD 0 default)) ∧
          (goalsCategory.higherIsBetter = false →
            catVal goalsCategory ([exTeamA, exTeamB, exTeamC].getD 0 default) ≤
              catVal goalsCategory ([exTeamA, exTeamB, exTeamC].getD j default))) :=
  ⟨by decide, by decide, by decide,
    (claim4_direction [exTeamA, exTeamB, exTeamC] (by decide) goalsCategory (by decide)
      0 (by decide)).1⟩

/-- C6: scoring is idempotent: a second pass over an unmodified
collection resets and recomputes exactly the same ranks, points and
aggregate scores. -/
theorem claim6_idempotent (ss : List TeamSummary) :
    applyCategoryRankScoring (applyCategoryRankScoring ss) = applyCategoryRankScoring ss := by
  have hlen := length_applyCategoryRankScoring ss
  have hreset : (applyCategoryRankScoring ss).map resetScore = ss.map resetScore := by
    apply List.ext_getElem
    · simp [hlen]
    · intro k h1 h2
      simp only [List.getElem_map]
      apply resetScore_eq_of_frame
      have hk : k < ss.length := by simpa using h2
      have h := @frame_scored ss k hk
      rw [List.getD_eq_getElem?_getD,
        List.getElem?_eq_getElem (show k < (applyCategoryRankScoring ss).length by omega)] at h
      rw [List.getD_eq_getElem?_getD, List.getElem?_eq_getElem hk] at h
      simpa using h
  show CATEGORIES.foldl (scoreCategory (applyCategoryRankScoring ss).length)
      ((applyCategoryRankScoring ss).map resetScore) = applyCategoryRankScoring ss
  rw [hlen, hreset]
  rfl

/-- C10: the scorer keeps the collection in input order and, on each
summary, changes nothing besides `categoryPoints`, `categoryRanks` and
`totals.fantasyScore`: name, season, rosters and all raw stat totals
are unchanged at every position. -/
theorem claim10_frame_preservation (ss : List TeamSummary) (i : Nat) (hi : i < ss.length) :
    (applyCategoryRankScoring ss).length = ss.length ∧
    ((applyCategoryRankScoring ss).getD i default).teamName = (ss.getD i default).teamName ∧
    ((applyCategoryRankScoring ss).getD i default).seasonId = (ss.getD i default).seasonId ∧
    ((applyCategoryRankScoring ss).getD i default).players = (ss.getD i default).players ∧
    ((applyCategoryRankScoring ss).getD i default).skaters = (ss.getD i default).skaters ∧
    ((applyCategoryRankScoring ss).getD i default).goalies = (ss.getD i default).goalies ∧
    ((applyCategoryRankScoring ss).getD i default).totals.goals =
      (ss.getD i default).totals.goals ∧
    ((applyCategoryRankScoring ss).getD i default).totals.assists =
      (ss.getD i default).totals.assists ∧
    ((applyCategoryRankScoring ss).getD i default).totals.powerPlayPoints =
      (ss.getD i default).totals.powerPlayPoints ∧
    ((applyCategoryRankScoring ss).getD i default).totals.hits =
      (ss.getD i default).totals.hits ∧
    ((applyCategoryRankScoring ss).getD i default).totals.shots =
      (ss.getD i default).totals.shots ∧
    ((applyCategoryRankScoring ss).getD i default).totals.penaltyMinutes =
      (ss.getD i default).totals.penaltyMinutes ∧
    ((applyCategoryRankScoring ss).getD i default).totals.avgSavePct =
      (ss.getD i default).totals.avgSavePct ∧
    ((applyCategoryRankScoring ss).getD i default).totals.avgGaa =
      (ss.getD i default).totals.avgGaa := by
  have h := @frame_scored ss i hi
  simp only [frame, Prod.mk.injEq] at h
  obtain ⟨h1, h2, h3, h4, h5, h6, h7, h8, h9, h10, h11, h12, h13⟩ := h
  exact ⟨length_applyCategoryRankScoring ss,
    h1, h2, h3, h4, h5, h6, h7, h8, h9, h10, h11, h12, h13⟩

/-- C10 witness: the two-team collection at position 0. -/
theorem claim10_witness :
    (0 : Nat) < [exTeamA, exTeamC].length ∧
      ((applyCategoryRankScoring [exTeamA, exTeamC]).length = [exTeamA, exTeamC].length ∧
       ((applyCategoryRankScoring [exTeamA, exTeamC]).getD 0 default).teamName =
         ([exTeamA, exTeamC].getD 0 default).teamName ∧
       ((applyCategoryRankScoring [exTeamA, exTeamC]).getD 0 default).seasonId =
         ([exTeamA, exTeamC].getD 0 default).seasonId ∧
       ((applyCategoryRankScoring [exTeamA, exTeamC]).getD 0 default).players =
         ([exTeamA, exTeamC].getD 0 default).players ∧
       ((applyCategoryRankScoring [exTeamA, exTeamC]).getD 0 default).skaters =
         ([exTeamA, exTeamC].getD 0 default).skaters ∧
       ((applyCategoryRankScoring [exTeamA, exTeamC]).getD 0 default).goalies =
         ([exTeamA, exTeamC].getD 0 default).goalies ∧
       ((applyCategoryRankScoring [exTeamA, exTeamC]).getD 0 default).totals.goals =
         ([exTeamA, exTeamC].getD 0 default).totals.goals ∧
       ((applyCategoryRankScoring [exTeamA, exTeamC]).getD 0 default).totals.assists =
         ([exTeamA, exTeamC].getD 0 default).totals.assists ∧
       ((applyCategoryRankScoring [exTeamA, exTeamC]).getD 0 default).totals.powerPlayPoints =
         ([exTeamA, exTeamC].getD 0 default).totals.powerPlayPoints ∧
       ((applyCategoryRankScoring [exTeamA, exTeamC]).getD 0 default).totals.hits =
         ([exTeamA, exTeamC].getD 0 default).totals.hits ∧
       ((applyCategoryRankScoring [exTeamA, exTeamC]).getD 0 default).totals.shots =
         ([exTeamA, exTeamC].getD 0 default).totals.shots ∧
       ((applyCategoryRankScoring [exTeamA, exTeamC]).getD 0 default).totals.penaltyMinutes =
         ([exTeamA, exTeamC].getD 0 default).totals.penaltyMinutes ∧
       ((applyCategoryRankScoring [exTeamA, exTeamC]).getD 0 default).totals.avgSavePct =
         ([exTeamA, exTeamC].getD 0 default).totals.avgSavePct ∧
       ((applyCategoryRankScoring [exTeamA, exTeamC]).getD 0 default).totals.avgGaa =
         ([exTeamA, exTeamC].getD 0 default).totals.avgGaa) :=
  ⟨by decide, claim10_frame_preservation [exTeamA, exTeamC] 0 (by decide)⟩

/-- C9 witness: the all-absent payload. -/
theorem claim9_witness :
    (({} : TeamJson).players = none ∨ ({} : TeamJson).players = some []) ∧
      ((computeTeamSummary {} none).players = [] ∧
       (computeTeamSummary {} none).totals.goals = some 0 ∧
       (computeTeamSummary {} none).totals.assists = some 0 ∧
       (computeTeamSummary {} none).totals.powerPlayPoints = some 0 ∧
       (computeTeamSummary {} none).totals.hits = some 0 ∧
       (computeTeamSummary {} none).totals.shots = some 0 ∧
       (computeTeamSummary {} none).totals.penaltyMinutes = some 0 ∧
       (computeTeamSummary {} none).totals.avgSavePct = some 0 ∧
       (computeTeamSummary {} none).totals.avgGaa = some 0) :=
  ⟨Or.inl rfl, claim9_empty_roster {} none (Or.inl rfl)⟩

end PWHL
